import Mathlib

/-!
Verification development for the youtube-transcript-ts repository.

The TypeScript sources are shallowly embedded: JavaScript numbers are
modelled by the rationals (exact arithmetic on the values occurring in the
claims), JavaScript `undefined` by `Option`, thrown exceptions by `Except`,
and the insertion-ordered `Map` collections by association lists.  Each
definition mirrors one function of the repository; the file it comes from
is named in its doc comment.
-/

/-- Model of JavaScript `String.prototype.padStart(targetLength, pad)`:
returns the string unchanged when it is already at least `targetLength`
characters long, otherwise prepends copies of `pad`. -/
def padStart (s : String) (targetLength : Nat) (pad : Char) : String :=
  if s.length ≥ targetLength then s
  else String.mk (List.replicate (targetLength - s.length) pad) ++ s

/-- Model of JavaScript number-to-string conversion for integer values
(the only values the formatters convert). -/
def intToString (i : ℤ) : String :=
  if i < 0 then "-" ++ Nat.repr i.natAbs else Nat.repr i.natAbs

/-- JavaScript truncation toward zero, as used by the `%` operator. -/
def jsTrunc (q : ℚ) : ℤ :=
  if 0 ≤ q then ⌊q⌋ else ⌈q⌉

/-- Model of the JavaScript `%` remainder operator on numbers: the
remainder carries the sign of the dividend (truncated division). -/
def jsMod (a b : ℚ) : ℚ :=
  a - b * (jsTrunc (a / b) : ℚ)

/-- Model of JavaScript `Math.round`: rounds half-way cases toward
positive infinity. -/
def jsRound (q : ℚ) : ℤ :=
  ⌊q + 1 / 2⌋

/-- One timed caption unit, from `types.ts` (`TranscriptSnippet`).
`start` and `duration` are seconds. -/
structure TranscriptSnippet where
  text : String
  start : ℚ
  duration : ℚ
deriving DecidableEq

/-- A fetched transcript, from `transcripts.ts` (`FetchedTranscript`). -/
structure FetchedTranscript where
  snippets : List TranscriptSnippet
  videoId : String
  language : String
  languageCode : String
  isGenerated : Bool
deriving DecidableEq

/-- `FetchedTranscript.length` from `transcripts.ts`. -/
def FetchedTranscript.length (t : FetchedTranscript) : Nat :=
  t.snippets.length

/-- `FetchedTranscript.get(index)` from `transcripts.ts`: the body is the
bare array access `this.snippets[index]`, which in JavaScript evaluates to
the element when `index` is an integer inside the bounds and to
`undefined` (here `none`) otherwise — no bounds check and no exception. -/
def FetchedTranscript.get (t : FetchedTranscript) (index : ℤ) : Option TranscriptSnippet :=
  if index < 0 then none else t.snippets[index.toNat]?

/-- The three abstract members of the `TextBasedFormatter` base class in
`formatters.ts`, gathered into a record so the shared algorithm can be
stated once for both subtitle dialects. -/
structure TextBasedFormatter where
  formatTimestamp : ℤ → ℤ → ℤ → ℤ → String
  formatTranscriptHeader : List String → String
  formatTranscriptHelper : Nat → String → TranscriptSnippet → String

/-- `Math.floor(time / 3600)` in `TextBasedFormatter.secondsToTimestamp`. -/
def hoursComponent (time : ℚ) : ℤ :=
  ⌊time / 3600⌋

/-- `Math.floor(remainder / 60)` where `remainder = time % 3600`. -/
def minsComponent (time : ℚ) : ℤ :=
  ⌊jsMod time 3600 / 60⌋

/-- `Math.floor(remainder % 60)` where `remainder = time % 3600`. -/
def secsComponent (time : ℚ) : ℤ :=
  ⌊jsMod (jsMod time 3600) 60⌋

/-- `Math.round((time - Math.floor(time)) * 1000)` — the millisecond
component of `TextBasedFormatter.secondsToTimestamp`. -/
def msComponent (time : ℚ) : ℤ :=
  jsRound ((time - (⌊time⌋ : ℚ)) * 1000)

/-- `TextBasedFormatter.secondsToTimestamp` from `formatters.ts`. -/
def secondsToTimestamp (F : TextBasedFormatter) (time : ℚ) : String :=
  F.formatTimestamp (hoursComponent time) (minsComponent time) (secsComponent time) (msComponent time)

/-- The per-iteration body of `TextBasedFormatter.formatTranscript`: the
cue end is `start + duration`, clipped to the next snippet's start when a
next snippet exists and starts earlier. -/
def cueTimeText (F : TextBasedFormatter) (snippet : TranscriptSnippet)
    (next : Option TranscriptSnippet) : String :=
  let e := snippet.start + snippet.duration
  let nextStart := match next with
    | some n => n.start
    | none => e
  let adjustedEnd := if nextStart < e then nextStart else e
  secondsToTimestamp F snippet.start ++ " --> " ++ secondsToTimestamp F adjustedEnd

/-- The loop of `TextBasedFormatter.formatTranscript`, with `i` the index
of the first remaining snippet. -/
def formatLinesAux (F : TextBasedFormatter) (i : Nat) :
    List TranscriptSnippet → List String
  | [] => []
  | [s] => [F.formatTranscriptHelper i (cueTimeText F s none) s]
  | s :: s2 :: rest =>
      F.formatTranscriptHelper i (cueTimeText F s (some s2)) s ::
        formatLinesAux F (i + 1) (s2 :: rest)

/-- `TextBasedFormatter.formatTranscript` from `formatters.ts`. -/
def TextBasedFormatter.formatTranscript (F : TextBasedFormatter)
    (transcript : FetchedTranscript) : String :=
  F.formatTranscriptHeader (formatLinesAux F 0 transcript.snippets)

/-- The `SRTFormatter` subclass of `formatters.ts`: comma millisecond
separator, 1-based sequence-number line before each cue. -/
def SRTFormatter : TextBasedFormatter where
  formatTimestamp := fun hours mins secs ms =>
    padStart (intToString hours) 2 '0' ++ ":" ++
      padStart (intToString mins) 2 '0' ++ ":" ++
      padStart (intToString secs) 2 '0' ++ "," ++
      padStart (intToString ms) 3 '0'
  formatTranscriptHeader := fun lines => String.intercalate "\n\n" lines ++ "\n"
  formatTranscriptHelper := fun index timeText snippet =>
    Nat.repr (index + 1) ++ "\n" ++ timeText ++ "\n" ++ snippet.text

/-- The `WebVTTFormatter` subclass of `formatters.ts`: period millisecond
separator, `WEBVTT` signature line, no sequence numbers. -/
def WebVTTFormatter : TextBasedFormatter where
  formatTimestamp := fun hours mins secs ms =>
    padStart (intToString hours) 2 '0' ++ ":" ++
      padStart (intToString mins) 2 '0' ++ ":" ++
      padStart (intToString secs) 2 '0' ++ "." ++
      padStart (intToString ms) 3 '0'
  formatTranscriptHeader := fun lines => "WEBVTT\n\n" ++ String.intercalate "\n\n" lines ++ "\n"
  formatTranscriptHelper := fun _ timeText snippet => timeText ++ "\n" ++ snippet.text

/-- Total positional access into a snippet list, for stating properties
about the formatter loop. -/
def snippetAt (l : List TranscriptSnippet) (i : Nat) : TranscriptSnippet :=
  l.getD i ⟨"", 0, 0⟩

/-- Spec-side description of the clipped cue end time: `min(start +
duration, next start)` for every snippet that has a successor, and the
unclipped `start + duration` for the last snippet. -/
def clippedEndSpec (l : List TranscriptSnippet) (i : Nat) : ℚ :=
  if i + 1 < l.length then
    min ((snippetAt l i).start + (snippetAt l i).duration) (snippetAt l (i + 1)).start
  else (snippetAt l i).start + (snippetAt l i).duration

/-- The three-snippet example input of the specification. -/
def exampleSnippets : List TranscriptSnippet :=
  [⟨"Hello world", 0, 3 / 2⟩, ⟨"How are you", 3 / 2, 2⟩, ⟨"Goodbye", 7 / 2, 1⟩]

/-- A `FetchedTranscript` holding the example snippets. -/
def exampleFetchedTranscript : FetchedTranscript :=
  ⟨exampleSnippets, "video123", "English", "en", false⟩

/-- Proxy configurations from `proxies.ts`.  `GenericProxyConfig` carries
an optional http and https URL; `WebshareProxyConfig` carries credentials
and a retry budget (the constructor default is 10). -/
inductive ProxyConfig
  | generic (httpUrl : Option String) (httpsUrl : Option String)
  | webshare (proxyUsername : String) (proxyPassword : String) (retriesWhenBlocked : Nat)
deriving DecidableEq

/-- The `retriesWhenBlocked` getter of each proxy class in `proxies.ts`:
0 for a generic proxy, the configured budget for Webshare. -/
def ProxyConfig.retriesWhenBlocked : ProxyConfig → Nat
  | .generic _ _ => 0
  | .webshare _ _ r => r

/-- The part of `HttpClient` (`http-client.ts`) that the catalog fetcher
observes: its optional proxy configuration. -/
structure HttpClient where
  proxyConfig : Option ProxyConfig
deriving DecidableEq

/-- `HttpClient.retriesWhenBlocked` from `http-client.ts`:
`this.proxyConfig?.retriesWhenBlocked ?? 0`. -/
def HttpClient.retriesWhenBlocked (c : HttpClient) : Nat :=
  match c.proxyConfig with
  | some p => p.retriesWhenBlocked
  | none => 0

/-- The typed failure taxonomy of `errors.ts`.  On the two blocked
classifications the field of type `Option (Option ProxyConfig)` records
whether `withProxyConfig` has been called (`none` = not attached yet;
`some pc` = attached, where `pc` itself may be `none` for `null`).
`ipBlocked` is the `IpBlocked` subclass of `RequestBlocked`. -/
inductive ApiError
  | requestBlocked (videoId : String) (proxyConfig : Option (Option ProxyConfig))
  | ipBlocked (videoId : String) (proxyConfig : Option (Option ProxyConfig))
  | ageRestricted (videoId : String)
  | videoUnplayable (videoId : String) (reason : Option String) (subReasons : List String)
  | videoUnavailable (videoId : String)
  | invalidVideoId (videoId : String)
  | transcriptsDisabled (videoId : String)
  | youTubeDataUnparsable (videoId : String)
  | youTubeRequestFailed (videoId : String) (reason : String)
  | notTranslatable (videoId : String)
  | translationLanguageNotAvailable (videoId : String)
  | noTranscriptFound (videoId : String) (requestedLanguageCodes : List String)
      (transcriptData : String)
  | failedToCreateConsentCookie (videoId : String)
  | poTokenRequired (videoId : String)
deriving DecidableEq

/-- The `error instanceof RequestBlocked` test of
`TranscriptListFetcher.fetchCaptionsJson`: true for `RequestBlocked` and
for its subclass `IpBlocked`, false for every other error class. -/
def ApiError.isRequestBlocked : ApiError → Bool
  | .requestBlocked _ _ => true
  | .ipBlocked _ _ => true
  | _ => false

/-- `RequestBlocked.withProxyConfig` from `errors.ts`: stores the given
proxy configuration (possibly `null`) on the error and rebuilds its
message.  It exists only on the blocked classifications; every other
error is returned unchanged (the fetcher never calls it on them). -/
def ApiError.withProxyConfig : ApiError → Option ProxyConfig → ApiError
  | .requestBlocked v _, pc => .requestBlocked v (some pc)
  | .ipBlocked v _, pc => .ipBlocked v (some pc)
  | e, _ => e

/-- Translation language entry from `types.ts`. -/
structure TranslationLanguage where
  language : String
  languageCode : String
deriving DecidableEq

/-- A caption track of the internal API response (`types.ts`). -/
structure CaptionTrack where
  baseUrl : String
  name : String
  languageCode : String
  kind : Option String
  isTranslatable : Bool
deriving DecidableEq

/-- `captions.playerCaptionsTracklistRenderer` of the internal API
response (`types.ts`). -/
structure CaptionsJson where
  captionTracks : List CaptionTrack
  translationLanguages : List TranslationLanguage
deriving DecidableEq

/-- The `PlayabilityStatus` string constants of `transcripts.ts`. -/
def PlayabilityStatus.OK : String := "OK"

/-- `PlayabilityStatus.ERROR` constant of `transcripts.ts`. -/
def PlayabilityStatus.ERROR : String := "ERROR"

/-- `PlayabilityStatus.LOGIN_REQUIRED` constant of `transcripts.ts`. -/
def PlayabilityStatus.LOGIN_REQUIRED : String := "LOGIN_REQUIRED"

/-- The exact bot-detection reason phrase of `transcripts.ts`
(`PlayabilityFailedReason.BOT_DETECTED`). -/
def PlayabilityFailedReason.BOT_DETECTED : String := "Sign in to confirm you\x27re not a bot"

/-- The exact age-restriction reason phrase of `transcripts.ts`
(`PlayabilityFailedReason.AGE_RESTRICTED`). -/
def PlayabilityFailedReason.AGE_RESTRICTED : String :=
  "This video may be inappropriate for some users."

/-- The exact video-unavailable reason phrase of `transcripts.ts`
(`PlayabilityFailedReason.VIDEO_UNAVAILABLE`). -/
def PlayabilityFailedReason.VIDEO_UNAVAILABLE : String := "This video is unavailable"

/-- One run of `errorScreen.playerErrorMessageRenderer.subreason.runs`
(`types.ts`); its `text` field may be absent. -/
structure SubreasonRun where
  text : Option String
deriving DecidableEq

/-- The `playabilityStatus` payload of the internal API response
(`types.ts`): every field may be absent.  `subreasonRuns` is `none` when
any link of the optional chain
`errorScreen?.playerErrorMessageRenderer?.subreason?.runs` is missing. -/
structure PlayabilityStatusData where
  status : Option String
  reason : Option String
  subreasonRuns : Option (List SubreasonRun)
deriving DecidableEq

/-- The sub-reason extraction of `TranscriptListFetcher.assertPlayability`:
each run's text defaulted to the empty string, then the empty texts
filtered out. -/
def subReasonTexts (playabilityStatus : Option PlayabilityStatusData) : List String :=
  (((playabilityStatus.bind PlayabilityStatusData.subreasonRuns).getD []).map
      (fun run => run.text.getD "")).filter (fun text => text.length > 0)

/-- `TranscriptListFetcher.assertPlayability` from `transcripts.ts`: the
playability interpreter.  `Except.ok` models returning without throwing. -/
def assertPlayability (playabilityStatus : Option PlayabilityStatusData)
    (videoId : String) : Except ApiError Unit :=
  match playabilityStatus.bind PlayabilityStatusData.status with
  | none => .ok ()
  | some status =>
    if status = PlayabilityStatus.OK then .ok ()
    else
      let reason := playabilityStatus.bind PlayabilityStatusData.reason
      if status = PlayabilityStatus.LOGIN_REQUIRED ∧
          reason = some PlayabilityFailedReason.BOT_DETECTED then
        .error (.requestBlocked videoId none)
      else if status = PlayabilityStatus.LOGIN_REQUIRED ∧
          reason = some PlayabilityFailedReason.AGE_RESTRICTED then
        .error (.ageRestricted videoId)
      else if status = PlayabilityStatus.ERROR ∧
          reason = some PlayabilityFailedReason.VIDEO_UNAVAILABLE then
        if videoId.startsWith "http://" ∨ videoId.startsWith "https://" then
          .error (.invalidVideoId videoId)
        else
          .error (.videoUnavailable videoId)
      else
        .error (.videoUnplayable videoId reason (subReasonTexts playabilityStatus))

/-- `TranscriptListFetcher.fetchCaptionsJson` from `transcripts.ts`.  One
whole pipeline run (HTML fetch, consent handling, API-key extraction,
internal API POST, playability check, catalog extraction) is abstracted
as the oracle `runAttempt`, indexed by the attempt number so that each
retry re-runs the entire pipeline afresh.  The catch block retries only
when the error is an instance of `RequestBlocked` and `tryNumber + 1`
is still below the transport's retry budget; on exhaustion it re-raises
the error with the proxy configuration (`getProxyConfig() ?? null`)
attached. -/
def fetchCaptionsJson (client : HttpClient)
    (runAttempt : Nat → Except ApiError CaptionsJson)
    (tryNumber : Nat) : Except ApiError CaptionsJson :=
  match runAttempt tryNumber with
  | .ok captions => .ok captions
  | .error e =>
    if e.isRequestBlocked then
      if h : tryNumber + 1 < client.retriesWhenBlocked then
        fetchCaptionsJson client runAttempt (tryNumber + 1)
      else
        .error (e.withProxyConfig client.proxyConfig)
    else
      .error e
termination_by client.retriesWhenBlocked - tryNumber
decreasing_by omega

/-- The pure data of a `Transcript` handle (`transcripts.ts`): the
`httpClient` reference is dropped, since no claim mentions it; `url` is
the private `_url` field. -/
structure Transcript where
  videoId : String
  url : String
  language : String
  languageCode : String
  isGenerated : Bool
  translationLanguages : List TranslationLanguage
deriving DecidableEq

/-- The `translationLanguagesDict` map built in the `Transcript`
constructor: a JavaScript `Map` built from the list keeps, for each key,
the value of its last occurrence. -/
def Transcript.translationLanguagesDictGet (t : Transcript) (code : String) :
    Option String :=
  (t.translationLanguages.reverse.find? (fun tl => tl.languageCode = code)).map
    TranslationLanguage.language

/-- `this.translationLanguagesDict.has(languageCode)` on a `Transcript`. -/
def Transcript.translationLanguagesDictHas (t : Transcript) (code : String) : Bool :=
  (t.translationLanguagesDictGet code).isSome

/-- The `isTranslatable` getter of `Transcript`:
`translationLanguages.length > 0`. -/
def Transcript.isTranslatable (t : Transcript) : Bool :=
  t.translationLanguages.length > 0

/-- `Transcript.translate(languageCode)` from `transcripts.ts`.  The
non-null assertion on `translationLanguagesDict.get` is modelled by
`getD ""`; it is justified because the preceding `has` check passed. -/
def Transcript.translate (t : Transcript) (languageCode : String) :
    Except ApiError Transcript :=
  if !t.isTranslatable then
    .error (.notTranslatable t.videoId)
  else if !(t.translationLanguagesDictHas languageCode) then
    .error (.translationLanguageNotAvailable t.videoId)
  else
    .ok ⟨t.videoId, t.url ++ "&tlang=" ++ languageCode,
      (t.translationLanguagesDictGet languageCode).getD "", languageCode, true, []⟩

/-- `Transcript.toString` from `transcripts.ts`. -/
def Transcript.toString (t : Transcript) : String :=
  let translationDesc := if t.isTranslatable then "[TRANSLATABLE]" else ""
  t.languageCode ++ " (\"" ++ t.language ++ "\")" ++ translationDesc

/-- `TranscriptList` from `transcripts.ts`.  The two JavaScript `Map`s,
keyed by language code, become insertion-ordered association lists. -/
structure TranscriptList where
  videoId : String
  manuallyCreatedTranscripts : List (String × Transcript)
  generatedTranscripts : List (String × Transcript)
  translationLanguages : List TranslationLanguage
deriving DecidableEq

/-- `Map.get` on one of the catalog maps (keys are unique, so the first
binding is the binding). -/
def mapGet (m : List (String × Transcript)) (key : String) : Option Transcript :=
  (m.find? (fun pair => pair.1 = key)).map Prod.snd

/-- The inner loop of `TranscriptList._findTranscript`: the first map of
`transcriptDicts` containing the language code wins. -/
def lookupFirst (transcriptDicts : List (List (String × Transcript)))
    (languageCode : String) : Option Transcript :=
  match transcriptDicts with
  | [] => none
  | d :: rest =>
    match mapGet d languageCode with
    | some t => some t
    | none => lookupFirst rest languageCode

/-- The outer loop of `TranscriptList._findTranscript`: language codes in
caller-supplied order, first hit wins. -/
def searchLanguageCodes (transcriptDicts : List (List (String × Transcript))) :
    List String → Option Transcript
  | [] => none
  | code :: rest =>
    match lookupFirst transcriptDicts code with
    | some t => some t
    | none => searchLanguageCodes transcriptDicts rest

/-- `getLanguageDescription` of `TranscriptList`: prefix each entry with
" - ", join with newlines, and fall back to "None" when the join is empty
(the `description || 'None'` idiom). -/
def getLanguageDescription (transcriptStrings : List String) : String :=
  let description := String.intercalate "\n" (transcriptStrings.map (fun t => " - " ++ t))
  if description = "" then "None" else description

/-- `TranscriptList.toString` from `transcripts.ts`: the human-readable
full catalog listing. -/
def TranscriptList.toString (tl : TranscriptList) : String :=
  let manualDescriptions := tl.manuallyCreatedTranscripts.map (fun p => p.2.toString)
  let generatedDescriptions := tl.generatedTranscripts.map (fun p => p.2.toString)
  let translationDescriptions := tl.translationLanguages.map
    (fun lang => lang.languageCode ++ " (\"" ++ lang.language ++ "\")")
  "For this video (" ++ tl.videoId ++
    ") transcripts are available in the following languages:\n\n" ++
    "(MANUALLY CREATED)\n" ++ getLanguageDescription manualDescriptions ++ "\n\n" ++
    "(GENERATED)\n" ++ getLanguageDescription generatedDescriptions ++ "\n\n" ++
    "(TRANSLATION LANGUAGES)\n" ++ getLanguageDescription translationDescriptions

/-- `TranscriptList._findTranscript` from `transcripts.ts`: both loops,
and on no match the `NoTranscriptFound` error carrying the requested
codes and the full catalog listing. -/
def TranscriptList.findTranscriptIn (tl : TranscriptList) (languageCodes : List String)
    (transcriptDicts : List (List (String × Transcript))) : Except ApiError Transcript :=
  match searchLanguageCodes transcriptDicts languageCodes with
  | some t => .ok t
  | none => .error (.noTranscriptFound tl.videoId languageCodes tl.toString)

/-- `TranscriptList.findTranscript`: manual tier before generated tier. -/
def TranscriptList.findTranscript (tl : TranscriptList) (languageCodes : List String) :
    Except ApiError Transcript :=
  tl.findTranscriptIn languageCodes [tl.manuallyCreatedTranscripts, tl.generatedTranscripts]

/-- `TranscriptList.findGeneratedTranscript`: generated tier only. -/
def TranscriptList.findGeneratedTranscript (tl : TranscriptList)
    (languageCodes : List String) : Except ApiError Transcript :=
  tl.findTranscriptIn languageCodes [tl.generatedTranscripts]

/-- `TranscriptList.findManuallyCreatedTranscript`: manual tier only. -/
def TranscriptList.findManuallyCreatedTranscript (tl : TranscriptList)
    (languageCodes : List String) : Except ApiError Transcript :=
  tl.findTranscriptIn languageCodes [tl.manuallyCreatedTranscripts]

/-- The manual German track of the specification's example catalog. -/
def manualDe : Transcript :=
  ⟨"vid123", "https://captions.example/de", "German", "de", false, []⟩

/-- The generated English track of the specification's example catalog. -/
def genEn : Transcript :=
  ⟨"vid123", "https://captions.example/en", "English", "en", true, []⟩

/-- The specification's example catalog: only a manual `de` track and a
generated `en` track. -/
def exampleTranscriptList : TranscriptList :=
  ⟨"vid123", [("de", manualDe)], [("en", genEn)], []⟩

/-- The `FORMATTING_TAGS` allow-list of `TranscriptParser` in
`transcripts.ts`. -/
def FORMATTING_TAGS : List String :=
  ["strong", "em", "b", "i", "mark", "small", "del", "ins", "sub", "sup"]

/-- JavaScript word character (the regex `\w` / `\b` classes). -/
def isWordChar (c : Char) : Bool :=
  c.isAlphanum || c = '_'

/-- Whether `cs` starts with the given tag name (case-insensitively, the
regex has the `i` flag) followed by a word boundary — one alternative of
the lookahead `(?:strong|em|b|i|...)\b`. -/
def tagPrefixAt : List Char → List Char → Bool
  | [], [] => true
  | [], c :: _ => !isWordChar c
  | _ :: _, [] => false
  | t :: ts, c :: cs => (c.toLower = t) && tagPrefixAt ts cs

/-- Whether some allow-listed tag name matches at `cs`. -/
def tagHere (cs : List Char) : Bool :=
  FORMATTING_TAGS.any (fun tag => tagPrefixAt tag.data cs)

/-- The lookahead `\/?(?:strong|em|b|i|mark|small|del|ins|sub|sup)\b` of
`TranscriptParser.getHtmlRegex(true)`: an optional extra slash, then an
allow-listed tag name at a word boundary. -/
def lookaheadMatches (cs : List Char) : Bool :=
  tagHere cs ||
    (match cs with
     | '/' :: r => tagHere r
     | _ => false)

/-- The lazy tail `.*?\b>` of the preserve-formatting regex: consume
characters (`.` matches neither newline nor carriage return) until the
first `>` that is preceded by a word character; return what follows it.
The length bound carried in the result justifies termination of the
scanner. -/
def findLazyEnd (prev : Char) : (cs : List Char) → Option { r : List Char // r.length ≤ cs.length }
  | [] => none
  | c :: rest =>
    if c = '>' && isWordChar prev then
      some ⟨rest, by simp only [List.length_cons]; omega⟩
    else if c = '\n' || c = '\r' then none
    else
      match findLazyEnd c rest with
      | some r => some ⟨r.val, by have := r.property; simp only [List.length_cons]; omega⟩
      | none => none

/-- One alternative of the `\/?` quantifier of the preserve-formatting
regex: with the slash consumption decided (`prev` is `/` or `<`), the
attempt succeeds when the negative lookahead admits the position and the
lazy tail `.*?\b>` finds its closing `>`. -/
def stripPreserveAttempt (prev : Char) (body : List Char) :
    Option { r : List Char // r.length ≤ body.length } :=
  if lookaheadMatches body then none
  else findLazyEnd prev body

/-- One match attempt of the preserve-formatting regex at a `<`: the
greedy `\/?` first tries consuming a following slash and, when that
whole alternative fails (the lookahead rejects or no `\b>` is found),
backtracks to consuming nothing — so `<//b>` is deleted even though
`</b>` is kept, exactly as the JavaScript engine behaves. -/
def stripPreserveMatch : (rest : List Char) → Option { r : List Char // r.length ≤ rest.length }
  | '/' :: r =>
    match stripPreserveAttempt '/' r with
    | some res => some ⟨res.val, by have := res.property; simp only [List.length_cons]; omega⟩
    | none =>
      match stripPreserveAttempt '<' ('/' :: r) with
      | some res => some res
      | none => none
  | other => stripPreserveAttempt '<' other

/-- `text.replace(regex, '')` for the preserve-formatting regex
`<\/?(?!\/?(?:strong|em|b|i|mark|small|del|ins|sub|sup)\b).*?\b>` of
`TranscriptParser.getHtmlRegex(true)`: at each `<`, try the match (with
the `\/?` backtracking of `stripPreserveMatch`); on failure the `<`
survives and scanning resumes at the next character, on success the
shortest match is deleted.  The first argument is fuel; a fuel of at
least the list length is never exhausted, since every step consumes at
least one character. -/
def stripPreserveAux : Nat → List Char → List Char
  | _, [] => []
  | 0, cs => cs
  | fuel + 1, c :: rest =>
    if c = '<' then
      match stripPreserveMatch rest with
      | some r => stripPreserveAux fuel r.val
      | none => c :: stripPreserveAux fuel rest
    else c :: stripPreserveAux fuel rest

/-- The scan for the first `>` in `text.replace(/<[^>]*>/gi, '')`:
`[^>]` matches any character (including newlines) except `>`. -/
def afterGt : (cs : List Char) → Option { r : List Char // r.length ≤ cs.length }
  | [] => none
  | c :: rest =>
    if c = '>' then some ⟨rest, by simp only [List.length_cons]; omega⟩
    else
      match afterGt rest with
      | some r => some ⟨r.val, by have := r.property; simp only [List.length_cons]; omega⟩
      | none => none

/-- `text.replace(/<[^>]*>/gi, '')` of `TranscriptParser.getHtmlRegex`
with formatting not preserved: every `<`...`>` group is deleted; a `<`
with no later `>` survives.  Fuel as in `stripPreserveAux`. -/
def stripAllTags : Nat → List Char → List Char
  | _, [] => []
  | 0, cs => cs
  | fuel + 1, c :: rest =>
    if c = '<' then
      match afterGt rest with
      | some r => stripAllTags fuel r.val
      | none => c :: stripAllTags fuel rest
    else c :: stripAllTags fuel rest

/-- The `text.replace(this.htmlRegex, '')` step of
`TranscriptParser.parse`, selecting the regex built by `getHtmlRegex`. -/
def htmlRegexReplace (preserveFormatting : Bool) (text : String) : String :=
  if preserveFormatting then String.mk (stripPreserveAux text.data.length text.data)
  else String.mk (stripAllTags text.data.length text.data)

/-- Named character references handled by the model of the `he` library's
`decode` (the references exercised by the claims; `he` itself knows the
full HTML set). -/
def namedEntityChar (name : List Char) : Option Char :=
  if name = "amp".data then some '&'
  else if name = "lt".data then some '<'
  else if name = "gt".data then some '>'
  else if name = "quot".data then some '"'
  else if name = "apos".data then some (Char.ofNat 39)
  else if name = "nbsp".data then some (Char.ofNat 160)
  else none

/-- Decimal digit string to number, `none` when empty or non-numeric. -/
def decValue (ds : List Char) : Option Nat :=
  if ds.isEmpty || !ds.all Char.isDigit then none
  else some (ds.foldl (fun acc c => acc * 10 + (c.toNat - 48)) 0)

/-- One hexadecimal digit. -/
def hexDigit (c : Char) : Option Nat :=
  if c.isDigit then some (c.toNat - 48)
  else if 'a' ≤ c ∧ c ≤ 'f' then some (c.toNat - 87)
  else if 'A' ≤ c ∧ c ≤ 'F' then some (c.toNat - 55)
  else none

/-- Hexadecimal digit string to number, `none` when empty or invalid. -/
def hexValue (ds : List Char) : Option Nat :=
  ds.foldl (fun acc c => acc.bind (fun a => (hexDigit c).map (fun d => a * 16 + d)))
    (if ds.isEmpty then none else some 0)

/-- Decode the body of one `&...;` reference: numeric (decimal or
hexadecimal) or named. -/
def entityChar (body : List Char) : Option Char :=
  match body with
  | '#' :: 'x' :: ds => (hexValue ds).map Char.ofNat
  | '#' :: 'X' :: ds => (hexValue ds).map Char.ofNat
  | '#' :: ds => (decValue ds).map Char.ofNat
  | name => namedEntityChar name

/-- Model of the `he` library's `decode` restricted to
semicolon-terminated character references; an `&` that does not open a
recognizable reference is kept verbatim.  Fuel as in `stripPreserveAux`. -/
def htmlDecodeAux : Nat → List Char → List Char
  | _, [] => []
  | 0, cs => cs
  | fuel + 1, c :: rest =>
    if c = '&' then
      match rest.dropWhile (fun ch => ch ≠ ';') with
      | ';' :: after =>
        match entityChar (rest.takeWhile (fun ch => ch ≠ ';')) with
        | some ch => ch :: htmlDecodeAux fuel after
        | none => c :: htmlDecodeAux fuel rest
      | _ => c :: htmlDecodeAux fuel rest
    else c :: htmlDecodeAux fuel rest

/-- `htmlDecode` applied to a whole string. -/
def htmlDecodeModel (s : String) : String :=
  String.mk (htmlDecodeAux s.data.length s.data)

/-- The text-cleaning composition of `TranscriptParser.parse`:
`htmlDecode(text.replace(this.htmlRegex, ''))` — tags stripped first,
entities decoded afterwards. -/
def cleanText (preserveFormatting : Bool) (text : String) : String :=
  htmlDecodeModel (htmlRegexReplace preserveFormatting text)

/-- The JavaScript number produced for a snippet attribute: either a
rational value or `NaN`. -/
inductive JSNum
  | nan
  | num (val : ℚ)
deriving DecidableEq

/-- Value of a string of decimal digits. -/
def digitsVal (ds : List Char) : Nat :=
  ds.foldl (fun acc c => acc * 10 + (c.toNat - 48)) 0

/-- The optional exponent suffix of a JavaScript float literal: sign and
digits; an `e` not followed by digits contributes exponent 0 (it is not
part of the parsed prefix). -/
def expValue (cs : List Char) : ℤ :=
  let signAndRest : ℤ × List Char :=
    match cs with
    | '+' :: r => (1, r)
    | '-' :: r => (-1, r)
    | _ => (1, cs)
  let ds := signAndRest.2.takeWhile Char.isDigit
  if ds.isEmpty then 0 else signAndRest.1 * (digitsVal ds : ℤ)

/-- Model of JavaScript `parseFloat`: skip leading whitespace, read an
optional sign, an integer part, an optional fractional part and an
optional exponent, ignore any trailing garbage, and produce `NaN` when no
digit was read at all ("Infinity" is not modelled; no caption attribute
produces it). -/
def parseFloatModel (s : String) : JSNum :=
  let cs := s.data.dropWhile Char.isWhitespace
  let signAndRest : ℚ × List Char :=
    match cs with
    | '+' :: r => (1, r)
    | '-' :: r => (-1, r)
    | _ => (1, cs)
  let intDigits := signAndRest.2.takeWhile Char.isDigit
  let afterInt := signAndRest.2.dropWhile Char.isDigit
  let fracAndRest : List Char × List Char :=
    match afterInt with
    | '.' :: r => (r.takeWhile Char.isDigit, r.dropWhile Char.isDigit)
    | _ => ([], afterInt)
  if intDigits.isEmpty && fracAndRest.1.isEmpty then JSNum.nan
  else
    let mantissa : ℚ :=
      (digitsVal intDigits : ℚ) + (digitsVal fracAndRest.1 : ℚ) / (10 : ℚ) ^ fracAndRest.1.length
    let e : ℤ :=
      match fracAndRest.2 with
      | 'e' :: r => expValue r
      | 'E' :: r => expValue r
      | _ => 0
    JSNum.num (signAndRest.1 * mantissa * (10 : ℚ) ^ e)

/-- One entry of the repeated `text` element as delivered by the XML
parser (`fast-xml-parser` with `ignoreAttributes: false` and the `@_`
attribute prefix): an element with no attributes collapses to a plain
string; otherwise the inner text sits under `#text` (absent for an empty
element) and the attributes under `@_start` / `@_dur` (attribute values
stay strings, `parseAttributeValue` is off by default; a numeric `#text`
is re-stringified by the code's `String(...)` before use, so it is
modelled as the resulting string). -/
inductive XmlText
  | str (s : String)
  | elem (text : Option String) (start : Option String) (dur : Option String)
deriving DecidableEq

/-- The value of `parsed.transcript?.text` in `TranscriptParser.parse`:
missing entirely (malformed XML, no transcript element, or no text
children — `fast-xml-parser` with default options does not throw, it
returns a tree without the structure), a single element, or an array. -/
inductive TextElements
  | missing
  | single (el : XmlText)
  | multiple (els : List XmlText)
deriving DecidableEq

/-- A parsed snippet as produced by `TranscriptParser.parse`: `start` and
`duration` come from `parseFloat` and may be `NaN`. -/
structure ParsedSnippet where
  text : String
  start : JSNum
  duration : JSNum
deriving DecidableEq

/-- The filter of `TranscriptParser.parse`: plain strings pass, elements
pass only when `#text` is present (`obj['#text'] !== undefined`). -/
def hasTextContent : XmlText → Bool
  | .str _ => true
  | .elem t _ _ => t.isSome

/-- The map body of `TranscriptParser.parse`: a plain string becomes a
snippet at 0/0; an element reads `#text` (defaulted to the empty string)
and parses `@_start` / `@_dur` with `parseFloat`, defaulting the missing
attribute string to "0"; the text is cleaned through the HTML regex and
entity decoding. -/
def snippetOfElement (preserveFormatting : Bool) : XmlText → ParsedSnippet
  | .str s => ⟨cleanText preserveFormatting s, JSNum.num 0, JSNum.num 0⟩
  | .elem t st d =>
      ⟨cleanText preserveFormatting (t.getD ""),
        parseFloatModel (st.getD "0"),
        parseFloatModel (d.getD "0")⟩

/-- JavaScript truthiness of the `parsed.transcript?.text` value, as
tested by the guard `if (!textElements) { return []; }`: an absent value
is falsy, a single plain-string element is falsy exactly when the string
is empty (a lone `<text/>`), and an object or an array — even an empty
array — is truthy.  (A lone text element whose content collapsed to the
number 0 would also be falsy; numeric collapse of a single element is
outside this model, which carries raw strings.) -/
def TextElements.truthy : TextElements → Bool
  | .missing => false
  | .single (.str s) => s != ""
  | .single (.elem _ _ _) => true
  | .multiple _ => true

/-- `TranscriptParser.parse` from `transcripts.ts`, starting from the
already-parsed XML tree: return the empty sequence when the located text
value is falsy (`if (!textElements) return []`); otherwise normalize a
single element to a one-element array, drop entries without text
content, and map the rest in document order. -/
def TranscriptParser.parse (preserveFormatting : Bool) (textElements : TextElements) :
    List ParsedSnippet :=
  if !textElements.truthy then []
  else
    let elements : List XmlText :=
      match textElements with
      | .missing => []
      | .single el => [el]
      | .multiple els => els
    (elements.filter hasTextContent).map (snippetOfElement preserveFormatting)

deriving instance DecidableEq for Except

/-- A track whose own translation-target list holds English and French,
for exercising `translate`. -/
def translatableDe : Transcript :=
  ⟨"vid123", "https://captions.example/de", "German", "de", false,
    [⟨"English", "en"⟩, ⟨"French", "fr"⟩]⟩

theorem if_lt_eq_min (a b : ℚ) : (if b < a then b else a) = min a b := by
  rcases lt_or_le b a with h | h
  · rw [if_pos h, min_eq_right h.le]
  · rw [if_neg (not_lt.mpr h), min_eq_left h]

theorem clippedEndSpec_cons (s : TranscriptSnippet) (l : List TranscriptSnippet) (i : Nat) :
    clippedEndSpec (s :: l) (i + 1) = clippedEndSpec l i := by
  simp only [clippedEndSpec, snippetAt, List.getD_cons_succ, List.length_cons,
    Nat.add_lt_add_iff_right]

theorem formatLinesAux_closed (F : TextBasedFormatter) :
    ∀ (l : List TranscriptSnippet) (k : Nat),
      formatLinesAux F k l = (List.range l.length).map (fun i =>
        F.formatTranscriptHelper (k + i)
          (secondsToTimestamp F (snippetAt l i).start ++ " --> " ++
            secondsToTimestamp F (clippedEndSpec l i))
          (snippetAt l i)) := by
  intro l
  induction l with
  | nil => intro k; simp [formatLinesAux]
  | cons s tl ih =>
    intro k
    cases tl with
    | nil =>
      simp only [formatLinesAux]
      simp [cueTimeText, clippedEndSpec, snippetAt, List.range_succ]
    | cons s2 rest =>
      rw [formatLinesAux, ih (k + 1)]
      rw [show ((s :: s2 :: rest).length = (s2 :: rest).length + 1) from rfl,
        List.range_succ_eq_map, List.map_cons, List.map_map]
      congr 1
      · have hlt : 0 + 1 < (s :: s2 :: rest).length := by
          simp only [List.length_cons]
          omega
        simp only [Nat.add_zero, clippedEndSpec, if_pos hlt, snippetAt, List.getD_cons_zero,
          List.getD_cons_succ, cueTimeText, if_lt_eq_min, min_comm]
      · apply List.map_congr_left
        intro i _
        have hk : k + 1 + i = k + (i + 1) := by omega
        simp only [Function.comp_apply, Nat.succ_eq_add_one, clippedEndSpec_cons, hk,
          snippetAt, List.getD_cons_succ]

/-- C5: for every fetched transcript, the timestamp-based formatters
render the end time of each snippet that has a successor as the minimum
of its own `start + duration` and the successor's start, and the last
snippet's end time as its unclipped `start + duration` — the rendered
cue lines are exactly the indexed map of `clippedEndSpec` over the
snippet sequence. -/
theorem timestampFormatter_clipping (F : TextBasedFormatter) (t : FetchedTranscript) :
    F.formatTranscript t = F.formatTranscriptHeader ((List.range t.snippets.length).map
      (fun i => F.formatTranscriptHelper i
        (secondsToTimestamp F (snippetAt t.snippets i).start ++ " --> " ++
          secondsToTimestamp F (clippedEndSpec t.snippets i))
        (snippetAt t.snippets i))) := by
  unfold TextBasedFormatter.formatTranscript
  rw [formatLinesAux_closed F t.snippets 0]
  simp only [Nat.zero_add]

unseal Rat.mul Rat.inv Rat.add Rat.sub in
/-- C8: on the specification's three-snippet example, SRT output begins
with a 1-based sequence number line and a comma-millisecond timestamp
line, and WebVTT output begins with the `WEBVTT` signature and a
period-millisecond timestamp line with no sequence number line. -/
theorem srt_webvtt_example_output :
    List.IsPrefix ("1\n00:00:00,000 --> 00:00:01,500\nHello world\n\n2\n").data
        (SRTFormatter.formatTranscript exampleFetchedTranscript).data ∧
      List.IsPrefix ("WEBVTT\n\n00:00:00.000 --> 00:00:01.500\nHello world\n\n").data
        (WebVTTFormatter.formatTranscript exampleFetchedTranscript).data := by
  decide

/-- C9: positional access on a fetched transcript performs no bounds
check — for every integer index outside `[0, length)`, `get` evaluates
to `undefined` (`none`) instead of raising. -/
theorem fetchedTranscript_get_out_of_bounds (t : FetchedTranscript) (i : ℤ)
    (h : i < 0 ∨ (t.length : ℤ) ≤ i) : t.get i = none := by
  rcases h with h | h
  · simp [FetchedTranscript.get, h]
  · have h0 : ¬ i < 0 := by
      have hnn : (0 : ℤ) ≤ (t.length : ℤ) := Int.natCast_nonneg _
      omega
    simp only [FetchedTranscript.get, if_neg h0]
    apply List.getElem?_eq_none
    simp only [FetchedTranscript.length] at h
    omega

/-- Witness for C9 at the example transcript with indices -1 and 3. -/
theorem fetchedTranscript_get_out_of_bounds_witness :
    exampleFetchedTranscript.get (-1) = none ∧ exampleFetchedTranscript.get 3 = none :=
  ⟨fetchedTranscript_get_out_of_bounds _ _ (Or.inl (by decide)),
   fetchedTranscript_get_out_of_bounds _ _ (Or.inr (by decide))⟩

/-- C10: whenever the fractional part of a nonnegative time rounds to a
full 1000 milliseconds, both timestamp renderers emit the four-character
millisecond field "1000" with the hour, minute and second components of
the original time unchanged — no carry into the seconds component, and
the millisecond field is neither three digits long nor below 1000. -/
theorem millisecond_component_overflow (t : ℚ) (_h0 : 0 ≤ t)
    (hms : msComponent t = 1000) :
    secondsToTimestamp SRTFormatter t =
      padStart (intToString (hoursComponent t)) 2 '0' ++ ":" ++
        padStart (intToString (minsComponent t)) 2 '0' ++ ":" ++
        padStart (intToString (secsComponent t)) 2 '0' ++ "," ++ "1000" ∧
    secondsToTimestamp WebVTTFormatter t =
      padStart (intToString (hoursComponent t)) 2 '0' ++ ":" ++
        padStart (intToString (minsComponent t)) 2 '0' ++ ":" ++
        padStart (intToString (secsComponent t)) 2 '0' ++ "." ++ "1000" := by
  have h1000 : padStart (intToString 1000) 3 '0' = "1000" := by decide
  refine ⟨?_, ?_⟩ <;>
    simp only [secondsToTimestamp, SRTFormatter, WebVTTFormatter, hms, h1000]

unseal Rat.mul Rat.inv Rat.add Rat.sub in
/-- Witness for C10 at t = 1.9995 seconds. -/
theorem millisecond_component_overflow_witness :
    secondsToTimestamp SRTFormatter ((19995 : ℚ) / 10000) = "00:00:01,1000" := by
  have h := (millisecond_component_overflow ((19995 : ℚ) / 10000)
    (by decide) (by decide)).1
  rw [h]
  decide

/-- C1: the catalog fetch pipeline retries the whole pipeline with an
incremented attempt counter exactly when the failure is of the
blocked-request classification (the `RequestBlocked` class, which
includes its subclass `IpBlocked`) and the attempt count has not yet
reached the transport's retry budget (0 when no proxy is configured);
once `tryNumber + 1` reaches the budget the blocked-request failure is
re-raised with the transport's proxy configuration (or null) attached;
a failure of any other classification propagates unchanged on its first
occurrence. -/
theorem fetchCaptionsJson_retry_policy :
    (∀ c : HttpClient, c.proxyConfig = none → c.retriesWhenBlocked = 0)
    ∧ (∀ (c : HttpClient) (run : Nat → Except ApiError CaptionsJson) (n : Nat) (e : ApiError),
        run n = .error e → e.isRequestBlocked = true → n + 1 < c.retriesWhenBlocked →
        fetchCaptionsJson c run n = fetchCaptionsJson c run (n + 1))
    ∧ (∀ (c : HttpClient) (run : Nat → Except ApiError CaptionsJson) (n : Nat) (e : ApiError),
        run n = .error e → e.isRequestBlocked = true → c.retriesWhenBlocked ≤ n + 1 →
        fetchCaptionsJson c run n = .error (e.withProxyConfig c.proxyConfig))
    ∧ (∀ (c : HttpClient) (run : Nat → Except ApiError CaptionsJson) (n : Nat) (e : ApiError),
        run n = .error e → e.isRequestBlocked = false →
        fetchCaptionsJson c run n = .error e) := by
  refine ⟨?_, ?_, ?_, ?_⟩
  · intro c h
    simp [HttpClient.retriesWhenBlocked, h]
  · intro c run n e h1 h2 h3
    conv_lhs => rw [fetchCaptionsJson]
    rw [h1]
    simp only [h2, if_true, dif_pos h3]
  · intro c run n e h1 h2 h3
    conv_lhs => rw [fetchCaptionsJson]
    rw [h1]
    simp only [h2, if_true, dif_neg (by omega : ¬ n + 1 < c.retriesWhenBlocked)]
  · intro c run n e h1 h2
    conv_lhs => rw [fetchCaptionsJson]
    rw [h1]
    simp [h2]

/-- Witness for C1: a proxyless client has budget 0; a Webshare client
with budget 2 retries a blocked first attempt; a proxyless client
re-raises the blocked failure with the null proxy configuration
attached; a non-blocked failure propagates unchanged. -/
theorem fetchCaptionsJson_retry_policy_witness :
    HttpClient.retriesWhenBlocked ⟨none⟩ = 0 ∧
    fetchCaptionsJson ⟨some (ProxyConfig.webshare "u" "p" 2)⟩
        (fun _ => .error (.requestBlocked "vid" none)) 0 =
      fetchCaptionsJson ⟨some (ProxyConfig.webshare "u" "p" 2)⟩
        (fun _ => .error (.requestBlocked "vid" none)) 1 ∧
    fetchCaptionsJson ⟨none⟩ (fun _ => .error (.requestBlocked "vid" none)) 0 =
      .error ((ApiError.requestBlocked "vid" none).withProxyConfig none) ∧
    fetchCaptionsJson ⟨none⟩ (fun _ => .error (.ageRestricted "vid")) 0 =
      .error (.ageRestricted "vid") :=
  ⟨fetchCaptionsJson_retry_policy.1 ⟨none⟩ rfl,
   fetchCaptionsJson_retry_policy.2.1 _ _ 0 _ rfl rfl (by decide),
   fetchCaptionsJson_retry_policy.2.2.1 _ _ 0 _ rfl rfl (by decide),
   fetchCaptionsJson_retry_policy.2.2.2 _ _ 0 _ rfl rfl⟩

/-- C2: on a payload with status LOGIN_REQUIRED, the exact bot-detection
phrase raises the blocked-request failure, the exact age-restriction
phrase raises the age-restricted failure, and any other reason falls
through to the generic unplayable failure carrying the raw reason and
the non-empty sub-reason texts; the interpreter never returns
successfully for this status. -/
theorem assertPlayability_login_required (ps : PlayabilityStatusData) (videoId : String)
    (hs : ps.status = some PlayabilityStatus.LOGIN_REQUIRED) :
    (ps.reason = some PlayabilityFailedReason.BOT_DETECTED →
      assertPlayability (some ps) videoId = .error (.requestBlocked videoId none)) ∧
    (ps.reason = some PlayabilityFailedReason.AGE_RESTRICTED →
      assertPlayability (some ps) videoId = .error (.ageRestricted videoId)) ∧
    (ps.reason ≠ some PlayabilityFailedReason.BOT_DETECTED →
      ps.reason ≠ some PlayabilityFailedReason.AGE_RESTRICTED →
      assertPlayability (some ps) videoId =
        .error (.videoUnplayable videoId ps.reason (subReasonTexts (some ps)))) ∧
    (∀ s ∈ subReasonTexts (some ps), s ≠ "") ∧
    assertPlayability (some ps) videoId ≠ .ok () := by
  have hbind : (some ps).bind PlayabilityStatusData.status =
      some PlayabilityStatus.LOGIN_REQUIRED := by simp [hs]
  have hbot : ps.reason = some PlayabilityFailedReason.BOT_DETECTED →
      assertPlayability (some ps) videoId = .error (.requestBlocked videoId none) := by
    intro hr
    simp [assertPlayability, hbind, hr, PlayabilityStatus.LOGIN_REQUIRED,
      PlayabilityStatus.OK, PlayabilityFailedReason.BOT_DETECTED]
  have hage : ps.reason = some PlayabilityFailedReason.AGE_RESTRICTED →
      assertPlayability (some ps) videoId = .error (.ageRestricted videoId) := by
    intro hr
    simp [assertPlayability, hbind, hr, PlayabilityStatus.LOGIN_REQUIRED,
      PlayabilityStatus.OK, PlayabilityFailedReason.BOT_DETECTED,
      PlayabilityFailedReason.AGE_RESTRICTED]
  have hother : ps.reason ≠ some PlayabilityFailedReason.BOT_DETECTED →
      ps.reason ≠ some PlayabilityFailedReason.AGE_RESTRICTED →
      assertPlayability (some ps) videoId =
        .error (.videoUnplayable videoId ps.reason (subReasonTexts (some ps))) := by
    intro h1 h2
    simp only [assertPlayability, hbind, Option.some_bind]
    rw [if_neg (by decide : ¬ (PlayabilityStatus.LOGIN_REQUIRED = PlayabilityStatus.OK))]
    rw [if_neg (fun hc => h1 hc.2)]
    rw [if_neg (fun hc => h2 hc.2)]
    rw [if_neg (fun hc =>
      absurd hc.1 (by decide : ¬ (PlayabilityStatus.LOGIN_REQUIRED = PlayabilityStatus.ERROR)))]
  refine ⟨hbot, hage, hother, ?_, ?_⟩
  · intro s hsmem
    simp only [subReasonTexts, List.mem_filter] at hsmem
    intro he
    rw [he] at hsmem
    simp at hsmem
  · by_cases h1 : ps.reason = some PlayabilityFailedReason.BOT_DETECTED
    · rw [hbot h1]; simp
    · by_cases h2 : ps.reason = some PlayabilityFailedReason.AGE_RESTRICTED
      · rw [hage h2]; simp
      · rw [hother h1 h2]; simp

/-- Witness for C2: a LOGIN_REQUIRED payload with the bot-detection
phrase, one with the age-restriction phrase, and one with an unrelated
reason and one empty and one non-empty sub-reason run. -/
theorem assertPlayability_login_required_witness :
    assertPlayability (some ⟨some "LOGIN_REQUIRED",
        some "Sign in to confirm you\x27re not a bot", none⟩) "vid" =
      .error (.requestBlocked "vid" none) ∧
    assertPlayability (some ⟨some "LOGIN_REQUIRED",
        some "This video may be inappropriate for some users.", none⟩) "vid" =
      .error (.ageRestricted "vid") ∧
    assertPlayability (some ⟨some "LOGIN_REQUIRED", some "Please sign in",
        some [⟨some ""⟩, ⟨some "Try signing in"⟩, ⟨none⟩]⟩) "vid" =
      .error (.videoUnplayable "vid" (some "Please sign in") ["Try signing in"]) :=
  ⟨(assertPlayability_login_required _ "vid" rfl).1 rfl,
   (assertPlayability_login_required _ "vid" rfl).2.1 rfl,
   by
    rw [(assertPlayability_login_required _ "vid" rfl).2.2.1 (by decide) (by decide)]
    decide⟩

theorem searchLanguageCodes_eq_none (dicts : List (List (String × Transcript)))
    (codes : List String) (h : ∀ c ∈ codes, lookupFirst dicts c = none) :
    searchLanguageCodes dicts codes = none := by
  induction codes with
  | nil => rfl
  | cons c cs ih =>
    have hc : lookupFirst dicts c = none := h c (List.mem_cons_self c cs)
    simp only [searchLanguageCodes, hc]
    exact ih (fun x hx => h x (List.mem_cons_of_mem c hx))

set_option maxRecDepth 10000 in
/-- C3: `findTranscript` iterates the requested language codes as the
outer loop and the manual-then-generated tiers as the inner loop: the
head code wins from the manual tier if present there, else from the
generated tier; a code present in neither tier is skipped; if no code
matches, the no-transcript-found failure carries the requested codes and
the full catalog listing.  On the example catalog (manual `de`,
generated `en`): `["de","en"]` returns the manual `de`, `["en"]` the
generated `en`; `findGeneratedTranscript` ignores the manual tier and
`findManuallyCreatedTranscript` the generated tier. -/
theorem findTranscript_order_spec :
    (∀ (tl : TranscriptList) (c : String) (cs : List String) (t : Transcript),
        mapGet tl.manuallyCreatedTranscripts c = some t →
        tl.findTranscript (c :: cs) = .ok t) ∧
    (∀ (tl : TranscriptList) (c : String) (cs : List String) (t : Transcript),
        mapGet tl.manuallyCreatedTranscripts c = none →
        mapGet tl.generatedTranscripts c = some t →
        tl.findTranscript (c :: cs) = .ok t) ∧
    (∀ (tl : TranscriptList) (c : String) (cs : List String) (t : Transcript),
        mapGet tl.manuallyCreatedTranscripts c = none →
        mapGet tl.generatedTranscripts c = none →
        (tl.findTranscript (c :: cs) = .ok t ↔ tl.findTranscript cs = .ok t)) ∧
    (∀ (tl : TranscriptList) (codes : List String),
        (∀ c ∈ codes, mapGet tl.manuallyCreatedTranscripts c = none ∧
          mapGet tl.generatedTranscripts c = none) →
        tl.findTranscript codes =
          .error (.noTranscriptFound tl.videoId codes tl.toString)) ∧
    exampleTranscriptList.findTranscript ["de", "en"] = .ok manualDe ∧
    exampleTranscriptList.findTranscript ["en"] = .ok genEn ∧
    exampleTranscriptList.findGeneratedTranscript ["de", "en"] = .ok genEn ∧
    exampleTranscriptList.findManuallyCreatedTranscript ["en"] =
      .error (.noTranscriptFound "vid123" ["en"] exampleTranscriptList.toString) := by
  refine ⟨?_, ?_, ?_, ?_, by decide, by decide, by decide, by decide⟩
  · intro tl c cs t h
    simp [TranscriptList.findTranscript, TranscriptList.findTranscriptIn,
      searchLanguageCodes, lookupFirst, h]
  · intro tl c cs t h1 h2
    simp [TranscriptList.findTranscript, TranscriptList.findTranscriptIn,
      searchLanguageCodes, lookupFirst, h1, h2]
  · intro tl c cs t h1 h2
    have hl : lookupFirst [tl.manuallyCreatedTranscripts, tl.generatedTranscripts] c = none := by
      simp [lookupFirst, h1, h2]
    simp only [TranscriptList.findTranscript, TranscriptList.findTranscriptIn,
      searchLanguageCodes, hl]
    cases hsc : searchLanguageCodes
        [tl.manuallyCreatedTranscripts, tl.generatedTranscripts] cs <;> simp [hsc]
  · intro tl codes h
    have hs : searchLanguageCodes
        [tl.manuallyCreatedTranscripts, tl.generatedTranscripts] codes = none :=
      searchLanguageCodes_eq_none _ _ (fun c hc => by
        simp [lookupFirst, (h c hc).1, (h c hc).2])
    simp [TranscriptList.findTranscript, TranscriptList.findTranscriptIn, hs]

/-- Witness for C3: concrete lookups on the example catalog, including a
skipped unknown code and an all-unknown request. -/
theorem findTranscript_order_spec_witness :
    exampleTranscriptList.findTranscript ["de"] = .ok manualDe ∧
    exampleTranscriptList.findTranscript ["en", "de"] = .ok genEn ∧
    exampleTranscriptList.findTranscript ["fr", "de"] = .ok manualDe ∧
    exampleTranscriptList.findTranscript ["xx"] =
      .error (.noTranscriptFound "vid123" ["xx"] exampleTranscriptList.toString) :=
  ⟨findTranscript_order_spec.1 exampleTranscriptList "de" [] manualDe (by decide),
   findTranscript_order_spec.2.1 exampleTranscriptList "en" ["de"] genEn
     (by decide) (by decide),
   (findTranscript_order_spec.2.2.1 exampleTranscriptList "fr" ["de"] manualDe
      (by decide) (by decide)).mpr
     (findTranscript_order_spec.1 exampleTranscriptList "de" [] manualDe (by decide)),
   findTranscript_order_spec.2.2.2.1 exampleTranscriptList ["xx"] (by decide)⟩

/-- C4: `translate` fails with the not-translatable failure when the
track's own translation-target list is empty, fails with the
translation-language-unavailable failure when the requested code is not
among this track's own targets (the function never consults any
catalog-wide list), and otherwise returns a new Transcript with the same
video id, the original URL with `&tlang=<code>` appended, the target's
display language, `isGenerated = true` and an empty translation-target
list; the original track value is untouched (the operation is pure). -/
theorem translate_spec :
    (∀ (t : Transcript) (code : String), t.translationLanguages = [] →
        t.translate code = .error (.notTranslatable t.videoId)) ∧
    (∀ (t : Transcript) (code : String), t.translationLanguages ≠ [] →
        t.translationLanguagesDictHas code = false →
        t.translate code = .error (.translationLanguageNotAvailable t.videoId)) ∧
    (∀ (t : Transcript) (code lang : String),
        t.translationLanguagesDictGet code = some lang →
        t.translate code =
          .ok ⟨t.videoId, t.url ++ "&tlang=" ++ code, lang, code, true, []⟩) := by
  refine ⟨?_, ?_, ?_⟩
  · intro t code h
    simp [Transcript.translate, Transcript.isTranslatable, h]
  · intro t code h1 h2
    have hlen : 0 < t.translationLanguages.length := List.length_pos.mpr h1
    simp [Transcript.translate, Transcript.isTranslatable, hlen, h2]
  · intro t code lang h
    have hne : t.translationLanguages ≠ [] := by
      intro hn
      rw [Transcript.translationLanguagesDictGet, hn] at h
      simp at h
    have hlen : 0 < t.translationLanguages.length := List.length_pos.mpr hne
    have hhas : t.translationLanguagesDictHas code = true := by
      simp [Transcript.translationLanguagesDictHas, h]
    simp [Transcript.translate, Transcript.isTranslatable, hlen, hhas, h]

/-- Witness for C4: the catalog's manual `de` track (no targets) is not
translatable; the translatable track rejects a code outside its own
target list; translating to `en` yields the derived track. -/
theorem translate_spec_witness :
    manualDe.translate "en" = .error (.notTranslatable "vid123") ∧
    translatableDe.translate "es" = .error (.translationLanguageNotAvailable "vid123") ∧
    translatableDe.translate "en" =
      .ok ⟨"vid123", "https://captions.example/de&tlang=en", "English", "en", true, []⟩ :=
  ⟨translate_spec.1 manualDe "en" rfl,
   translate_spec.2.1 translatableDe "es" (by decide) (by decide),
   by
    rw [translate_spec.2.2 translatableDe "en" "English" (by decide)]
    decide⟩

unseal Rat.mul Rat.inv Rat.add Rat.sub in
/-- Counterexample to C6 as stated: an entry whose `start` attribute is
present but not parseable as a number ("abc") produces a snippet whose
start is NaN, not the claimed default 0 — `parseFloat` only receives the
"0" default when the attribute is absent.  Additionally, a single empty
text element (a lone `<text/>`, the falsy string "") is rejected by the
truthiness guard rather than being normalized to a one-element
sequence, although the same empty string inside an array yields one
empty-text snippet. -/
theorem parse_unparseable_attr_counterexample :
    TranscriptParser.parse false (.multiple [.elem (some "hi") (some "abc") none]) =
      [⟨"hi", JSNum.nan, JSNum.num 0⟩] ∧ JSNum.nan ≠ JSNum.num 0 ∧
    TranscriptParser.parse false (.single (XmlText.str "")) = [] ∧
    TranscriptParser.parse false (.multiple [XmlText.str ""]) =
      [⟨"", JSNum.num 0, JSNum.num 0⟩] := by
  decide

unseal Rat.mul Rat.inv Rat.add Rat.sub in
/-- C6 (amended): the parser returns the empty sequence when the located
text value is falsy — absent structure (as after malformed XML, which
the underlying parser absorbs without throwing) or a single empty text
element; it normalizes a single truthy text element to a one-element
sequence, drops entries lacking text content, preserves document order
(it distributes over append), and reads `start` and `dur` as floating
point with 0 as the default when the attribute is absent — while a
present but unparseable attribute yields NaN. -/
theorem parse_amended_spec :
    (∀ pf, TranscriptParser.parse pf .missing = []) ∧
    (∀ pf, TranscriptParser.parse pf (.single (XmlText.str "")) = []) ∧
    (∀ pf el, (TextElements.single el).truthy = true →
      TranscriptParser.parse pf (.single el) =
        TranscriptParser.parse pf (.multiple [el])) ∧
    (∀ pf st d els, TranscriptParser.parse pf (.multiple (XmlText.elem none st d :: els)) =
      TranscriptParser.parse pf (.multiple els)) ∧
    (∀ pf l1 l2, TranscriptParser.parse pf (.multiple (l1 ++ l2)) =
      TranscriptParser.parse pf (.multiple l1) ++ TranscriptParser.parse pf (.multiple l2)) ∧
    (∀ pf txt, snippetOfElement pf (XmlText.elem (some txt) none none) =
      ⟨cleanText pf txt, JSNum.num 0, JSNum.num 0⟩) ∧
    parseFloatModel "abc" = JSNum.nan ∧
    parseFloatModel "1.5" = JSNum.num (3 / 2) ∧
    parseFloatModel "0" = JSNum.num 0 := by
  have h0 : parseFloatModel "0" = JSNum.num 0 := by decide
  refine ⟨fun _ => rfl, fun _ => rfl, ?_, ?_, ?_, ?_, by decide, by decide, h0⟩
  · intro pf el h
    simp [TranscriptParser.parse, h]
    simp [TextElements.truthy]
  · intro pf st d els
    simp [TranscriptParser.parse, TextElements.truthy, hasTextContent]
  · intro pf l1 l2
    simp [TranscriptParser.parse, TextElements.truthy, List.filter_append]
  · intro pf txt
    simp [snippetOfElement, h0]

unseal Rat.mul Rat.inv Rat.add Rat.sub in
/-- Witness for C6 (amended) at concrete inputs. -/
theorem parse_amended_spec_witness :
    TranscriptParser.parse false (.single (.str "plain")) =
      TranscriptParser.parse false (.multiple [.str "plain"]) ∧
    TranscriptParser.parse true (.multiple ([XmlText.str "a"] ++ [XmlText.str "b"])) =
      TranscriptParser.parse true (.multiple [XmlText.str "a"]) ++
        TranscriptParser.parse true (.multiple [XmlText.str "b"]) ∧
    snippetOfElement false (XmlText.elem (some "x") none none) =
      ⟨"x", JSNum.num 0, JSNum.num 0⟩ :=
  ⟨parse_amended_spec.2.2.1 false (.str "plain") (by decide),
   parse_amended_spec.2.2.2.2.1 true [XmlText.str "a"] [XmlText.str "b"],
   by
    rw [parse_amended_spec.2.2.2.2.2.1 false "x"]
    decide⟩

/-- C7: with formatting preserved, every tag on the allow-list (`<b>`,
`<i>`, ... and their closing forms) survives the stripping regex while a
tag off the list such as `<font>` is deleted; with formatting not
preserved every tag is deleted; and in both modes HTML entities are
decoded after stripping, so an entity-encoded angle bracket is never
treated as markup. -/
theorem formatting_tag_stripping_spec :
    (FORMATTING_TAGS.all (fun tag =>
      htmlRegexReplace true ("<" ++ tag ++ ">") == "<" ++ tag ++ ">" &&
      htmlRegexReplace true ("</" ++ tag ++ ">") == "</" ++ tag ++ ">" &&
      htmlRegexReplace false ("<" ++ tag ++ ">") == "" &&
      htmlRegexReplace false ("</" ++ tag ++ ">") == "") = true) ∧
    htmlRegexReplace true "<font>" = "" ∧
    htmlRegexReplace true "</font>" = "" ∧
    cleanText true "Hello <b>world</b> &amp; <font>x</font> <i>!</i>" =
      "Hello <b>world</b> & x <i>!</i>" ∧
    cleanText false "Hello <b>world</b> &amp; <font>x</font> <i>!</i>" =
      "Hello world & x !" ∧
    cleanText false "&lt;b&gt;" = "<b>" ∧
    cleanText true "&lt;font&gt;" = "<font>" := by
  decide
